import Mathlib

/-!
Verification of the WebXR plane-detection / cube-placement application.

The development shallowly embeds the JavaScript sources:
  - src/utils/math.js        (geometric utilities)
  - src/webxr/planes.js      (PlaneDetection scoring, HitTestManager)
  - src/interaction/CursorManager.js
  - src/main.js              (placement state machine, input tracking)

Numbers are embedded as exact rationals.  JavaScript computes with IEEE
doubles; every concrete input used below is chosen so that the double
computation is exact, and every symbolic theorem is about the ideal
real-number semantics of the formulas.  `Math.sqrt` and `Math.sin` are
transcendental; where a function's observable behaviour factors through
them we either work with squared distances (justified by strict
monotonicity of the real square root) or abstract the function as an
explicit oracle parameter, proving the statements for every oracle.
-/

namespace WebXRCube

/-- Point with three rational coordinates, standing for the JS objects
`{x, y, z}` (and `DOMPointReadOnly` vertices, whose `w` component the
embedded functions never read). -/
structure P3 where
  x : ℚ
  y : ℚ
  z : ℚ
deriving DecidableEq

/-- Quaternion `{x, y, z, w}` as used for `transform.orientation`. -/
structure Quat where
  x : ℚ
  y : ℚ
  z : ℚ
  w : ℚ
deriving DecidableEq

/-- Embeds `multiplyMatrixAndPoint(matrix, point)` from src/utils/math.js.
The matrix is a flat 16-element column-major list, the point a 4-element
list.  The JS function throws `Error` on wrong sizes; this is embedded as
`Except.error` carrying the message.  Note the function returns the raw
product `matrix * point`; it performs no homogeneous division. -/
def multiplyMatrixAndPoint (matrix point : List ℚ) : Except String (List ℚ) :=
  if matrix.length ≠ 16 then
    Except.error "Matrix must be 4x4 (16 elements)"
  else if point.length ≠ 4 then
    Except.error "Point must be 4D [x, y, z, w]"
  else
    Except.ok ((List.range 4).map (fun row =>
      (List.range 4).foldl
        (fun sum col => sum + matrix.getD (col * 4 + row) 0 * point.getD col 0) 0))

/-- Embeds `getPlaneCenter(polygon)` from src/utils/math.js: arithmetic
mean of the vertices; throws on an empty polygon (embedded as
`Except.error`).  Fewer than 3 vertices only logs a warning, it does not
fail. -/
def getPlaneCenter (polygon : List P3) : Except String P3 :=
  if polygon.length = 0 then
    Except.error "Polygon cannot be empty"
  else
    Except.ok
      ⟨(polygon.map P3.x).sum / polygon.length,
       (polygon.map P3.y).sum / polygon.length,
       (polygon.map P3.z).sum / polygon.length⟩

/-- Bounding box as returned by `getBoundingBox`. -/
structure BBox where
  min : P3
  max : P3
  size : P3
deriving DecidableEq

/-- Embeds `getBoundingBox(points)` from src/utils/math.js.  The JS loop
seeds the folds with `±Infinity`; over a nonempty list that is the same
as seeding with the first element, which is how the nonempty branch is
written here.  Empty input yields the all-zero box exactly as in the
source. -/
def getBoundingBox (points : List P3) : BBox :=
  match points with
  | [] => ⟨⟨0, 0, 0⟩, ⟨0, 0, 0⟩, ⟨0, 0, 0⟩⟩
  | p :: ps =>
    let minX := ps.foldl (fun a q => Min.min a q.x) p.x
    let maxX := ps.foldl (fun a q => Max.max a q.x) p.x
    let minY := ps.foldl (fun a q => Min.min a q.y) p.y
    let maxY := ps.foldl (fun a q => Max.max a q.y) p.y
    let minZ := ps.foldl (fun a q => Min.min a q.z) p.z
    let maxZ := ps.foldl (fun a q => Max.max a q.z) p.z
    ⟨⟨minX, minY, minZ⟩, ⟨maxX, maxY, maxZ⟩,
     ⟨maxX - minX, maxY - minY, maxZ - minZ⟩⟩

/-- Body of one iteration of the shoelace loop in both area functions:
`polygon[i].x * polygon[j].z - polygon[j].x * polygon[i].z` with the
cyclic successor `j = (i + 1) % n`. -/
def shoelaceTerm (polygon : List P3) (n i : ℕ) : ℚ :=
  (polygon.getD i ⟨0, 0, 0⟩).x * (polygon.getD ((i + 1) % n) ⟨0, 0, 0⟩).z -
  (polygon.getD ((i + 1) % n) ⟨0, 0, 0⟩).x * (polygon.getD i ⟨0, 0, 0⟩).z

/-- Embeds `calculatePolygonArea(polygon)` from src/utils/math.js: the
shoelace formula on the X/Z projection with cyclic indexing, absolute
value, halved; `0` for fewer than 3 vertices. -/
def calculatePolygonArea (polygon : List P3) : ℚ :=
  if polygon.length < 3 then 0
  else |∑ i ∈ Finset.range polygon.length, shoelaceTerm polygon polygon.length i| / 2

/-- Embeds `PlaneDetection.calculateArea(polygon)` from
src/webxr/planes.js, whose body is textually identical to
`calculatePolygonArea` in src/utils/math.js. -/
def calculateArea (polygon : List P3) : ℚ :=
  if polygon.length < 3 then 0
  else |∑ i ∈ Finset.range polygon.length, shoelaceTerm polygon polygon.length i| / 2

theorem calculateArea_eq (polygon : List P3) :
    calculateArea polygon = calculatePolygonArea polygon := rfl

/-! Claim C6: behaviour of the point-transform utility. -/

/-- Component `row` of the raw column-major matrix-vector product
`matrix * point`, stated independently of the source loop as a
`Finset.sum`. -/
def rawProductComponent (matrix point : List ℚ) (row : ℕ) : ℚ :=
  ∑ col ∈ Finset.range 4, matrix.getD (col * 4 + row) 0 * point.getD col 0

/-- Claim C6, counterexample: the claim asserts the returned spatial
components are homogeneous-divided (component divided by the w component
of the product).  For the matrix `2 * I` and the point `(1,0,0,1)` the
function returns x component `2`, while the homogeneous-divided value
`(M*p).x / (M*p).w = 2 / 2 = 1` differs, so the claim is false: the
source returns the raw product without dividing by w. -/
theorem claim6_counterexample :
    multiplyMatrixAndPoint [2, 0, 0, 0, 0, 2, 0, 0, 0, 0, 2, 0, 0, 0, 0, 2] [1, 0, 0, 1] =
      Except.ok [2, 0, 0, 2] ∧
    rawProductComponent [2, 0, 0, 0, 0, 2, 0, 0, 0, 0, 2, 0, 0, 0, 0, 2] [1, 0, 0, 1] 0 /
      rawProductComponent [2, 0, 0, 0, 0, 2, 0, 0, 0, 0, 2, 0, 0, 0, 0, 2] [1, 0, 0, 1] 3 ≠
      2 := by
  refine ⟨by norm_num [multiplyMatrixAndPoint, List.range_succ], ?_⟩
  simp only [rawProductComponent, Finset.sum_range_succ, Finset.sum_range_zero]
  norm_num

/-- Claim C6, amended: `multiplyMatrixAndPoint` returns the raw
matrix-vector product `matrix * point` (no homogeneous division; the
result coincides with the homogeneous-divided point exactly when the
product's w component is 1), and it fails loudly with an
invalid-argument error exactly when the matrix does not have 16
components or the point does not have 4. -/
theorem claim6_raw_product (matrix point : List ℚ) :
    (matrix.length = 16 → point.length = 4 →
      multiplyMatrixAndPoint matrix point =
        Except.ok ((List.range 4).map (rawProductComponent matrix point))) ∧
    (matrix.length = 16 → point.length ≠ 4 →
      multiplyMatrixAndPoint matrix point =
        Except.error "Point must be 4D [x, y, z, w]") ∧
    (matrix.length ≠ 16 →
      multiplyMatrixAndPoint matrix point =
        Except.error "Matrix must be 4x4 (16 elements)") := by
  refine ⟨fun hm hp => ?_, fun hm hp => ?_, fun hm => ?_⟩
  · rw [multiplyMatrixAndPoint, if_neg (by omega), if_neg (by omega)]
    refine congrArg Except.ok (List.map_congr_left fun row _ => ?_)
    show List.foldl _ 0 (List.range 4) = _
    rw [show List.range 4 = [0, 1, 2, 3] from rfl]
    simp only [List.foldl, rawProductComponent, Finset.sum_range_succ, Finset.sum_range_zero]
  · rw [multiplyMatrixAndPoint, if_neg (by omega), if_pos hp]
  · rw [multiplyMatrixAndPoint, if_pos hm]

/-- Claim C6, witness: the amended theorem applied to the identity
matrix with point `(5,6,7,1)` (ok branch) and to an empty matrix (error
branch). -/
theorem claim6_raw_product_witness :
    multiplyMatrixAndPoint [1, 0, 0, 0, 0, 1, 0, 0, 0, 0, 1, 0, 0, 0, 0, 1] [5, 6, 7, 1] =
      Except.ok ((List.range 4).map
        (rawProductComponent [1, 0, 0, 0, 0, 1, 0, 0, 0, 0, 1, 0, 0, 0, 0, 1] [5, 6, 7, 1])) ∧
    multiplyMatrixAndPoint [] [5, 6, 7, 1] =
      Except.error "Matrix must be 4x4 (16 elements)" :=
  ⟨(claim6_raw_product _ _).1 rfl rfl, (claim6_raw_product _ _).2.2 (by decide)⟩

/-! Claim C8: the polygon centroid lies in the axis-aligned bounding box. -/

theorem foldl_min_le_seed (l : List ℚ) (a : ℚ) : l.foldl Min.min a ≤ a := by
  induction l generalizing a with
  | nil => exact le_refl a
  | cons h t ih => exact le_trans (ih (Min.min a h)) (min_le_left a h)

theorem foldl_min_le_mem (l : List ℚ) : ∀ a x : ℚ, x ∈ l → l.foldl Min.min a ≤ x := by
  induction l with
  | nil => intro a x hx; cases hx
  | cons h t ih =>
    intro a x hx
    rcases List.mem_cons.mp hx with rfl | hx'
    · exact le_trans (foldl_min_le_seed t (Min.min a x)) (min_le_right a x)
    · exact ih (Min.min a h) x hx'

theorem seed_le_foldl_max (l : List ℚ) (a : ℚ) : a ≤ l.foldl Max.max a := by
  induction l generalizing a with
  | nil => exact le_refl a
  | cons h t ih => exact le_trans (le_max_left a h) (ih (Max.max a h))

theorem mem_le_foldl_max (l : List ℚ) : ∀ a x : ℚ, x ∈ l → x ≤ l.foldl Max.max a := by
  induction l with
  | nil => intro a x hx; cases hx
  | cons h t ih =>
    intro a x hx
    rcases List.mem_cons.mp hx with rfl | hx'
    · exact le_trans (le_max_right a x) (seed_le_foldl_max t (Max.max a x))
    · exact ih (Max.max a h) x hx'

theorem mul_length_le_sum (l : List ℚ) (m : ℚ) (h : ∀ x ∈ l, m ≤ x) :
    m * l.length ≤ l.sum := by
  induction l with
  | nil => simp
  | cons a t ih =>
    have ha : m ≤ a := h a (List.mem_cons_self a t)
    have ht : m * t.length ≤ t.sum := ih fun x hx => h x (List.mem_cons_of_mem a hx)
    rw [List.sum_cons, List.length_cons]
    have hexp : m * ((t.length : ℚ) + 1) = m + m * t.length := by ring
    push_cast
    rw [hexp]
    exact add_le_add ha ht

theorem sum_le_mul_length (l : List ℚ) (m : ℚ) (h : ∀ x ∈ l, x ≤ m) :
    l.sum ≤ m * l.length := by
  induction l with
  | nil => simp
  | cons a t ih =>
    have ha : a ≤ m := h a (List.mem_cons_self a t)
    have ht : t.sum ≤ m * t.length := ih fun x hx => h x (List.mem_cons_of_mem a hx)
    rw [List.sum_cons, List.length_cons]
    have hexp : m * ((t.length : ℚ) + 1) = m + m * t.length := by ring
    push_cast
    rw [hexp]
    exact add_le_add ha ht

/-- Coordinatewise statement of claim C8: the mean of the coordinate
values `f` of `p :: ps` lies between the seeded min fold and the seeded
max fold of the same values, which are the folds `getBoundingBox`
computes. -/
theorem coord_mean_bounds (f : P3 → ℚ) (p : P3) (ps : List P3) :
    ps.foldl (fun a q => Min.min a (f q)) (f p) ≤
      ((p :: ps).map f).sum / ((p :: ps).length : ℚ) ∧
    ((p :: ps).map f).sum / ((p :: ps).length : ℚ) ≤
      ps.foldl (fun a q => Max.max a (f q)) (f p) := by
  have hfoldmin : ps.foldl (fun a q => Min.min a (f q)) (f p) =
      (ps.map f).foldl Min.min (f p) := (List.foldl_map f Min.min ps (f p)).symm
  have hfoldmax : ps.foldl (fun a q => Max.max a (f q)) (f p) =
      (ps.map f).foldl Max.max (f p) := (List.foldl_map f Max.max ps (f p)).symm
  have hlen : (0 : ℚ) < ((p :: ps).length : ℚ) := by
    have : 0 < (p :: ps).length := List.length_pos.mpr (List.cons_ne_nil p ps)
    exact_mod_cast this
  constructor
  · rw [hfoldmin, le_div_iff₀ hlen]
    have hb : ∀ x ∈ (p :: ps).map f, (ps.map f).foldl Min.min (f p) ≤ x := by
      intro x hx
      rcases List.mem_map.mp hx with ⟨q, hq, rfl⟩
      rcases List.mem_cons.mp hq with rfl | hq'
      · exact foldl_min_le_seed (ps.map f) (f q)
      · exact foldl_min_le_mem (ps.map f) (f p) (f q) (List.mem_map_of_mem f hq')
    have hs := mul_length_le_sum ((p :: ps).map f) _ hb
    rwa [List.length_map] at hs
  · rw [hfoldmax, div_le_iff₀ hlen]
    have hb : ∀ x ∈ (p :: ps).map f, x ≤ (ps.map f).foldl Max.max (f p) := by
      intro x hx
      rcases List.mem_map.mp hx with ⟨q, hq, rfl⟩
      rcases List.mem_cons.mp hq with rfl | hq'
      · exact seed_le_foldl_max (ps.map f) (f q)
      · exact mem_le_foldl_max (ps.map f) (f p) (f q) (List.mem_map_of_mem f hq')
    have hs := sum_le_mul_length ((p :: ps).map f) _ hb
    rwa [List.length_map] at hs

/-- Claim C8: for every polygon with at least 3 vertices, each
coordinate of the centroid computed by `getPlaneCenter` lies between the
minimum and maximum of that coordinate over the vertices as computed by
`getBoundingBox`. -/
theorem claim8_centroid_in_bbox (polygon : List P3) (c : P3)
    (hlen : 3 ≤ polygon.length) (hc : getPlaneCenter polygon = Except.ok c) :
    (getBoundingBox polygon).min.x ≤ c.x ∧ c.x ≤ (getBoundingBox polygon).max.x ∧
    (getBoundingBox polygon).min.y ≤ c.y ∧ c.y ≤ (getBoundingBox polygon).max.y ∧
    (getBoundingBox polygon).min.z ≤ c.z ∧ c.z ≤ (getBoundingBox polygon).max.z := by
  cases polygon with
  | nil => simp at hlen
  | cons p ps =>
    rw [getPlaneCenter, if_neg (by simp)] at hc
    have hc' := Except.ok.inj hc
    subst hc'
    refine ⟨?_, ?_, ?_, ?_, ?_, ?_⟩
    · exact (coord_mean_bounds P3.x p ps).1
    · exact (coord_mean_bounds P3.x p ps).2
    · exact (coord_mean_bounds P3.y p ps).1
    · exact (coord_mean_bounds P3.y p ps).2
    · exact (coord_mean_bounds P3.z p ps).1
    · exact (coord_mean_bounds P3.z p ps).2

/-- Claim C8, witness: the centroid of the concrete triangle
`(0,0,0), (3,1,0), (0,2,6)` lies in its bounding box. -/
theorem claim8_centroid_in_bbox_witness :
    (getBoundingBox [⟨0, 0, 0⟩, ⟨3, 1, 0⟩, ⟨0, 2, 6⟩]).min.x ≤ (1 : ℚ) ∧
    (1 : ℚ) ≤ (getBoundingBox [⟨0, 0, 0⟩, ⟨3, 1, 0⟩, ⟨0, 2, 6⟩]).max.x ∧
    (getBoundingBox [⟨0, 0, 0⟩, ⟨3, 1, 0⟩, ⟨0, 2, 6⟩]).min.y ≤ (1 : ℚ) ∧
    (1 : ℚ) ≤ (getBoundingBox [⟨0, 0, 0⟩, ⟨3, 1, 0⟩, ⟨0, 2, 6⟩]).max.y ∧
    (getBoundingBox [⟨0, 0, 0⟩, ⟨3, 1, 0⟩, ⟨0, 2, 6⟩]).min.z ≤ (2 : ℚ) ∧
    (2 : ℚ) ≤ (getBoundingBox [⟨0, 0, 0⟩, ⟨3, 1, 0⟩, ⟨0, 2, 6⟩]).max.z :=
  claim8_centroid_in_bbox [⟨0, 0, 0⟩, ⟨3, 1, 0⟩, ⟨0, 2, 6⟩] ⟨1, 1, 2⟩ (by decide)
    (by norm_num [getPlaneCenter])

/-! Claim C9: polygon area is invariant under reversal of winding order. -/

theorem getD_reverse (l : List P3) (i : ℕ) (hi : i < l.length) (d : P3) :
    l.reverse.getD i d = l.getD (l.length - 1 - i) d := by
  have h1 : i < l.reverse.length := by simpa using hi
  have h2 : l.length - 1 - i < l.length := by omega
  rw [List.getD_eq_getElem l.reverse d h1, List.getD_eq_getElem l d h2]
  exact List.getElem_reverse h1

/-- Reversing the vertex order negates the cyclic shoelace sum. -/
theorem shoelace_sum_reverse (l : List P3) (h3 : 3 ≤ l.length) :
    (∑ i ∈ Finset.range l.length, shoelaceTerm l.reverse l.length i) =
      -∑ i ∈ Finset.range l.length, shoelaceTerm l l.length i := by
  obtain ⟨m, hm⟩ : ∃ m, l.length = m + 1 := ⟨l.length - 1, by omega⟩
  have hrev : ∀ i < m + 1, l.reverse.getD i (⟨0, 0, 0⟩ : P3) = l.getD (m - i) ⟨0, 0, 0⟩ := by
    intro i hi
    have h := getD_reverse l i (by omega) ⟨0, 0, 0⟩
    have h' : l.length - 1 - i = m - i := by omega
    rwa [h'] at h
  rw [hm, Finset.sum_range_succ, Finset.sum_range_succ]
  have hmain : ∀ j < m, shoelaceTerm l.reverse (m + 1) (m - 1 - j) =
      -shoelaceTerm l (m + 1) j := by
    intro j hj
    unfold shoelaceTerm
    have e1 : (m - 1 - j + 1) % (m + 1) = m - j := by
      rw [Nat.mod_eq_of_lt (by omega)]; omega
    have e2 : (j + 1) % (m + 1) = j + 1 := Nat.mod_eq_of_lt (by omega)
    rw [e1, e2, hrev (m - 1 - j) (by omega), hrev (m - j) (by omega)]
    have e3 : m - (m - 1 - j) = j + 1 := by omega
    have e4 : m - (m - j) = j := by omega
    rw [e3, e4]
    ring
  have htail : shoelaceTerm l.reverse (m + 1) m = -shoelaceTerm l (m + 1) m := by
    unfold shoelaceTerm
    rw [Nat.mod_self (m + 1), hrev m (by omega), hrev 0 (by omega)]
    have e3 : m - m = 0 := by omega
    have e4 : m - 0 = m := rfl
    rw [e3, e4]
    ring
  have hhead : (∑ i ∈ Finset.range m, shoelaceTerm l.reverse (m + 1) i) =
      -∑ i ∈ Finset.range m, shoelaceTerm l (m + 1) i := by
    rw [← Finset.sum_range_reflect (fun i => shoelaceTerm l.reverse (m + 1) i) m,
      ← Finset.sum_neg_distrib]
    exact Finset.sum_congr rfl fun j hj => hmain j (Finset.mem_range.mp hj)
  rw [hhead, htail]
  ring

/-- Claim C9: both polygon-area functions (`calculatePolygonArea` in the
math utilities and `PlaneDetection.calculateArea`, which share their
body) return the same value on the reversed vertex sequence as on the
original: the shoelace sum changes sign under winding reversal and the
absolute value is taken. -/
theorem claim9_area_reverse_invariant (polygon : List P3) :
    calculatePolygonArea polygon.reverse = calculatePolygonArea polygon ∧
    calculateArea polygon.reverse = calculateArea polygon := by
  have base : calculatePolygonArea polygon.reverse = calculatePolygonArea polygon := by
    unfold calculatePolygonArea
    rw [List.length_reverse]
    by_cases h : polygon.length < 3
    · rw [if_pos h, if_pos h]
    · rw [if_neg h, if_neg h, shoelace_sum_reverse polygon (by omega), abs_neg]
  exact ⟨base, by rw [calculateArea_eq, calculateArea_eq]; exact base⟩

/-! Claim C5: best-placement-plane selection in PlaneDetection
(src/webxr/planes.js). -/

/-- Plane orientation as reported by `XRPlane.orientation`, restricted
to the two nonempty string values the sources compare against (both are
truthy in JS). -/
inductive Orientation
  | horizontal
  | vertical
deriving DecidableEq

/-- Analyzed plane record as produced by `PlaneDetection.analyzePlane`,
restricted to the fields read by filtering and scoring. -/
structure PlaneData where
  orientation : Orientation
  area : ℚ
  worldCenter : P3
  semanticLabel : String
deriving DecidableEq

/-- Filtering criteria of `PlaneDetection.filterPlanes`.  Absent fields
impose no constraint; the source guards every criterion with
`criteria.field &&`, so a numeric criterion equal to `0` and an empty
semantic label are falsy and also impose no constraint. -/
structure FilterCriteria where
  orientation : Option Orientation := none
  minArea : Option ℚ := none
  semanticLabel : Option String := none
  minHeight : Option ℚ := none
  maxHeight : Option ℚ := none

/-- Embeds the predicate of `PlaneDetection.filterPlanes`: each active
criterion can reject the plane, and the plane passes when none does.
The source rejects on `plane.area < criteria.minArea`,
`plane.worldCenter.y < criteria.minHeight`,
`plane.worldCenter.y > criteria.maxHeight`, orientation inequality and
semantic-label inequality. -/
def planePassesFilter (criteria : FilterCriteria) (p : PlaneData) : Bool :=
  (match criteria.orientation with
   | some o => decide (p.orientation = o)
   | none => true) &&
  (match criteria.minArea with
   | some m => decide (m = 0) || decide (m ≤ p.area)
   | none => true) &&
  (match criteria.semanticLabel with
   | some s => decide (s = "") || decide (p.semanticLabel = s)
   | none => true) &&
  (match criteria.minHeight with
   | some m => decide (m = 0) || decide (m ≤ p.worldCenter.y)
   | none => true) &&
  (match criteria.maxHeight with
   | some m => decide (m = 0) || decide (p.worldCenter.y ≤ m)
   | none => true)

/-- Embeds `PlaneDetection.filterPlanes`. -/
def filterPlanes (planes : List PlaneData) (criteria : FilterCriteria) : List PlaneData :=
  planes.filter (planePassesFilter criteria)

/-- Caller-supplied preferences of `findBestPlacementPlane`; absent
fields fall back to the defaults. -/
structure Preferences where
  orientation : Option Orientation := none
  minArea : Option ℚ := none
  preferredHeight : Option ℚ := none
  heightTolerance : Option ℚ := none

/-- Fully-defaulted preferences after the `{...defaultPrefs,
...preferences}` spread. -/
structure MergedPrefs where
  orientation : Orientation
  minArea : ℚ
  preferredHeight : ℚ
  heightTolerance : ℚ

/-- Embeds the spread merge in `findBestPlacementPlane`: fields present
in `preferences` win, absent fields fall back to the defaults
`horizontal`, `0.1`, `0.7`, `0.3`. -/
def mergePrefs (preferences : Preferences) : MergedPrefs :=
  ⟨preferences.orientation.getD Orientation.horizontal,
   preferences.minArea.getD (1 / 10),
   preferences.preferredHeight.getD (7 / 10),
   preferences.heightTolerance.getD (3 / 10)⟩

/-- Embeds `PlaneDetection.scorePlane` with `Math.sqrt` abstracted as
the oracle `sqrtQ` (the selection theorems below hold for every oracle,
in particular for the true square root).  Rational division totalizes
`q / 0` as `0`, whereas at tolerance `0` the JS source divides by zero:
`heightDiff / 0` is `Infinity` (making `heightScore` `0`) or, when the
plane sits exactly at the preferred height, `NaN`, which propagates into
the score and makes the sort comparator inconsistent, leaving the
selection implementation-defined.  The embedding is therefore faithful
exactly when the merged tolerance is nonzero (the default is `0.3`), and
every claim about this function below carries that hypothesis. -/
def scorePlane (sqrtQ : ℚ → ℚ) (plane : PlaneData) (prefs : MergedPrefs) : ℚ :=
  let areaScore := Min.min (plane.area * 10) 30
  let heightDiff := |plane.worldCenter.y - prefs.preferredHeight|
  let heightScore := Max.max 0 (30 - heightDiff / prefs.heightTolerance * 30)
  let stabilityScore : ℚ := 20
  let dist := sqrtQ (plane.worldCenter.x ^ 2 + plane.worldCenter.z ^ 2)
  let accessibilityScore := Max.max 0 (20 - dist * 5)
  Min.min (areaScore + heightScore + stabilityScore + accessibilityScore) 100

/-- Insert into a list sorted by descending score, placing the new
element before the first entry whose score does not exceed it. -/
def insertByScoreDesc (x : PlaneData × ℚ) : List (PlaneData × ℚ) → List (PlaneData × ℚ)
  | [] => [x]
  | y :: ys => if y.2 ≤ x.2 then x :: y :: ys else y :: insertByScoreDesc x ys

/-- Stable descending sort by score.  `Array.prototype.sort` with the
comparator `(a, b) => b.score - a.score` is stable (ES2019) and a stable
descending order is unique, so this insertion sort is a faithful model
of the source's `candidates.sort`. -/
def sortByScoreDesc : List (PlaneData × ℚ) → List (PlaneData × ℚ)
  | [] => []
  | x :: xs => insertByScoreDesc x (sortByScoreDesc xs)

/-- Embeds `PlaneDetection.findBestPlacementPlane`: return `null` on an
empty input, merge preferences with defaults, filter by orientation and
minimum area, return `null` when no candidate remains, otherwise attach
scores (the `{...plane, score}` spread is modelled as a pair), sort
descending and take the first element. -/
def findBestPlacementPlane (sqrtQ : ℚ → ℚ) (planes : List PlaneData)
    (preferences : Preferences) : Option (PlaneData × ℚ) :=
  if planes = [] then none
  else if filterPlanes planes
      { orientation := some (mergePrefs preferences).orientation,
        minArea := some (mergePrefs preferences).minArea } = [] then none
  else
    (sortByScoreDesc ((filterPlanes planes
        { orientation := some (mergePrefs preferences).orientation,
          minArea := some (mergePrefs preferences).minArea }).map
      (fun p => (p, scorePlane sqrtQ p (mergePrefs preferences))))).head?

/-- Specification-side tie-breaking rule: keep the incumbent unless a
later candidate scores strictly higher. -/
def pickBest (best y : PlaneData × ℚ) : PlaneData × ℚ :=
  if best.2 < y.2 then y else best

/-- Specification-side selection, written from the claim's words: the
earliest candidate attaining the maximal score (the fold keeps the
incumbent on ties, so the first maximum of the list wins). -/
def specBestTarget : List (PlaneData × ℚ) → Option (PlaneData × ℚ)
  | [] => none
  | x :: xs => some (xs.foldl pickBest x)

theorem foldl_pickBest_seed (zs : List (PlaneData × ℚ)) :
    ∀ x z, zs.foldl pickBest (pickBest x z) =
      if x.2 < (zs.foldl pickBest z).2 then zs.foldl pickBest z else x := by
  induction zs with
  | nil => intro x z; rfl
  | cons w ws ih =>
    intro x z
    simp only [List.foldl_cons]
    rw [ih (pickBest x z) w, ih z w]
    unfold pickBest
    split_ifs <;> first | rfl | linarith

theorem foldl_pickBest_mem_max (l : List (PlaneData × ℚ)) :
    ∀ a, (l.foldl pickBest a = a ∨ l.foldl pickBest a ∈ l) ∧
      a.2 ≤ (l.foldl pickBest a).2 ∧ ∀ y ∈ l, y.2 ≤ (l.foldl pickBest a).2 := by
  induction l with
  | nil =>
    intro a
    exact ⟨Or.inl rfl, le_refl _, fun y hy => absurd hy (List.not_mem_nil y)⟩
  | cons w ws ih =>
    intro a
    simp only [List.foldl_cons]
    obtain ⟨hmem, hle, hall⟩ := ih (pickBest a w)
    have haw : a.2 ≤ (pickBest a w).2 ∧ w.2 ≤ (pickBest a w).2 := by
      unfold pickBest
      split_ifs with h
      · exact ⟨le_of_lt h, le_refl _⟩
      · exact ⟨le_refl _, le_of_not_lt h⟩
    refine ⟨?_, le_trans haw.1 hle, ?_⟩
    · rcases hmem with h | h
      · rw [h]
        unfold pickBest
        split_ifs
        · exact Or.inr (List.mem_cons_self w ws)
        · exact Or.inl rfl
      · exact Or.inr (List.mem_cons_of_mem w h)
    · intro y hy
      rcases List.mem_cons.mp hy with rfl | hy'
      · exact le_trans haw.2 hle
      · exact hall y hy'

theorem specBestTarget_isSome (l : List (PlaneData × ℚ)) (h : l ≠ []) :
    ∃ b, specBestTarget l = some b := by
  cases l with
  | nil => exact absurd rfl h
  | cons x xs => exact ⟨xs.foldl pickBest x, rfl⟩

theorem specBestTarget_spec (l : List (PlaneData × ℚ)) (b : PlaneData × ℚ)
    (hb : specBestTarget l = some b) : b ∈ l ∧ ∀ y ∈ l, y.2 ≤ b.2 := by
  cases l with
  | nil => cases hb
  | cons x xs =>
    have hb' : xs.foldl pickBest x = b := by
      simpa [specBestTarget] using hb
    obtain ⟨hmem, hle, hall⟩ := foldl_pickBest_mem_max xs x
    rw [hb'] at hmem hle hall
    refine ⟨?_, ?_⟩
    · rcases hmem with h | h
      · rw [h]; exact List.mem_cons_self x xs
      · exact List.mem_cons_of_mem x h
    · intro y hy
      rcases List.mem_cons.mp hy with rfl | hy'
      · exact hle
      · exact hall y hy'

/-- Head of the stable descending sort is exactly the claim-side
earliest maximum. -/
theorem sortByScoreDesc_head (l : List (PlaneData × ℚ)) :
    (sortByScoreDesc l).head? = specBestTarget l := by
  induction l with
  | nil => rfl
  | cons x xs ih =>
    show (insertByScoreDesc x (sortByScoreDesc xs)).head? = _
    cases hs : sortByScoreDesc xs with
    | nil =>
      rw [hs] at ih
      cases xs with
      | nil => rfl
      | cons z zs => simp [specBestTarget] at ih
    | cons y ys =>
      rw [hs] at ih
      cases xs with
      | nil => simp [specBestTarget] at ih
      | cons z zs =>
        have hy : y = zs.foldl pickBest z := by
          simpa [specBestTarget] using ih
        show (if y.2 ≤ x.2 then x :: y :: ys else y :: insertByScoreDesc x ys).head? = _
        simp only [specBestTarget, List.foldl_cons]
        rw [foldl_pickBest_seed zs x z, ← hy]
        split_ifs with h1 h2 h2 <;> simp <;> linarith

/-- Qualification predicate from the claim: horizontal orientation and
area at least the minimum-area floor. -/
def qualifiesSpec (minAreaFloor : ℚ) (p : PlaneData) : Prop :=
  p.orientation = Orientation.horizontal ∧ minAreaFloor ≤ p.area

theorem passes_iff_qualifies (preferences : Preferences)
    (hOr : preferences.orientation = none) (p : PlaneData) (hA : 0 ≤ p.area) :
    (planePassesFilter
      { orientation := some (mergePrefs preferences).orientation,
        minArea := some (mergePrefs preferences).minArea } p = true) ↔
    qualifiesSpec (mergePrefs preferences).minArea p := by
  have hor : (mergePrefs preferences).orientation = Orientation.horizontal := by
    simp [mergePrefs, hOr]
  rw [hor]
  simp only [planePassesFilter, qualifiesSpec, Bool.and_eq_true, decide_eq_true_eq,
    Bool.or_eq_true, and_true]
  constructor
  · rintro ⟨h1, h2⟩
    refine ⟨h1, ?_⟩
    rcases h2 with h2 | h2
    · rw [h2]; exact hA
    · exact h2
  · rintro ⟨h1, h2⟩
    exact ⟨h1, Or.inr h2⟩

/-- Claim C5: with the default (horizontal) orientation preference, a
nonzero merged height tolerance (at tolerance 0 the source's score is
`Infinity`/`NaN`-valued and its sort comparator inconsistent, so the
embedding — and the claim's own "linear falloff over the tolerance
band" — only make sense away from 0) and the nonnegative areas
`calculateArea` produces, `findBestPlacementPlane` returns `none`
exactly when no plane is horizontal with area at least the merged
minimum-area floor; otherwise it returns a qualifying candidate
carrying its `scorePlane` score, maximal among all qualifying
candidates, and equal to the earliest maximal-scoring candidate in
input order (`specBestTarget`), for every interpretation of
`Math.sqrt`. -/
theorem claim5_best_placement (sqrtQ : ℚ → ℚ) (planes : List PlaneData)
    (preferences : Preferences) (hOr : preferences.orientation = none)
    (_hTol : (mergePrefs preferences).heightTolerance ≠ 0)
    (hA : ∀ p ∈ planes, 0 ≤ p.area) :
    ((∀ p ∈ planes, ¬ qualifiesSpec (mergePrefs preferences).minArea p) →
      findBestPlacementPlane sqrtQ planes preferences = none) ∧
    (∀ q ∈ planes, qualifiesSpec (mergePrefs preferences).minArea q →
      ∃ best sc, findBestPlacementPlane sqrtQ planes preferences = some (best, sc) ∧
        best ∈ planes ∧ qualifiesSpec (mergePrefs preferences).minArea best ∧
        sc = scorePlane sqrtQ best (mergePrefs preferences) ∧
        ∀ p ∈ planes, qualifiesSpec (mergePrefs preferences).minArea p →
          scorePlane sqrtQ p (mergePrefs preferences) ≤ sc) ∧
    findBestPlacementPlane sqrtQ planes preferences =
      specBestTarget ((filterPlanes planes
          { orientation := some (mergePrefs preferences).orientation,
            minArea := some (mergePrefs preferences).minArea }).map
        (fun p => (p, scorePlane sqrtQ p (mergePrefs preferences)))) := by
  have hqual : ∀ p ∈ planes,
      (planePassesFilter
        { orientation := some (mergePrefs preferences).orientation,
          minArea := some (mergePrefs preferences).minArea } p = true) ↔
      qualifiesSpec (mergePrefs preferences).minArea p :=
    fun p hp => passes_iff_qualifies preferences hOr p (hA p hp)
  have hmain : findBestPlacementPlane sqrtQ planes preferences =
      specBestTarget ((filterPlanes planes
          { orientation := some (mergePrefs preferences).orientation,
            minArea := some (mergePrefs preferences).minArea }).map
        (fun p => (p, scorePlane sqrtQ p (mergePrefs preferences)))) := by
    unfold findBestPlacementPlane
    by_cases hpl : planes = []
    · subst hpl
      simp [filterPlanes, specBestTarget]
    · rw [if_neg hpl]
      by_cases hc : filterPlanes planes
          { orientation := some (mergePrefs preferences).orientation,
            minArea := some (mergePrefs preferences).minArea } = []
      · rw [if_pos hc, hc]
        rfl
      · rw [if_neg hc]
        exact sortByScoreDesc_head _
  refine ⟨?_, ?_, hmain⟩
  · intro hnone
    have hfe : filterPlanes planes
        { orientation := some (mergePrefs preferences).orientation,
          minArea := some (mergePrefs preferences).minArea } = [] := by
      rw [filterPlanes, List.filter_eq_nil_iff]
      intro p hp
      exact fun h => hnone p hp ((hqual p hp).mp h)
    rw [hmain, hfe]
    rfl
  · intro q hq hquala
    have hqf : q ∈ filterPlanes planes
        { orientation := some (mergePrefs preferences).orientation,
          minArea := some (mergePrefs preferences).minArea } := by
      rw [filterPlanes, List.mem_filter]
      exact ⟨hq, (hqual q hq).mpr hquala⟩
    have hqs : (q, scorePlane sqrtQ q (mergePrefs preferences)) ∈
        (filterPlanes planes
          { orientation := some (mergePrefs preferences).orientation,
            minArea := some (mergePrefs preferences).minArea }).map
        (fun p => (p, scorePlane sqrtQ p (mergePrefs preferences))) :=
      List.mem_map_of_mem _ hqf
    obtain ⟨b, hb⟩ := specBestTarget_isSome ((filterPlanes planes
        { orientation := some (mergePrefs preferences).orientation,
          minArea := some (mergePrefs preferences).minArea }).map
        (fun p => (p, scorePlane sqrtQ p (mergePrefs preferences))))
      (by intro hm; rw [hm] at hqs; cases hqs)
    obtain ⟨hbmem, hbmax⟩ := specBestTarget_spec _ b hb
    obtain ⟨pb, hpbf, hpb⟩ := List.mem_map.mp hbmem
    refine ⟨pb, scorePlane sqrtQ pb (mergePrefs preferences), ?_, ?_, ?_, rfl, ?_⟩
    · rw [hmain, hb, ← hpb]
    · exact (List.mem_filter.mp hpbf).1
    · exact (hqual pb (List.mem_filter.mp hpbf).1).mp (List.mem_filter.mp hpbf).2
    · intro p hp hpqual
      have hps : (p, scorePlane sqrtQ p (mergePrefs preferences)) ∈
          (filterPlanes planes
            { orientation := some (mergePrefs preferences).orientation,
              minArea := some (mergePrefs preferences).minArea }).map
          (fun pp => (pp, scorePlane sqrtQ pp (mergePrefs preferences))) :=
        List.mem_map_of_mem _ (List.mem_filter.mpr ⟨hp, (hqual p hp).mpr hpqual⟩)
      have := hbmax _ hps
      rw [← hpb] at this
      exact this

/-- Claim C5, witness: one horizontal plane of area 0.5 at height 0.72
with default orientation preference; the selection equals the
specification-side earliest maximum (third conjunct of the claim
theorem, instantiated). -/
theorem claim5_best_placement_witness :
    findBestPlacementPlane (fun _ => 0)
      [⟨Orientation.horizontal, 1 / 2, ⟨1, 18 / 25, -1⟩, "table"⟩]
      ⟨none, none, some (7 / 10), some (3 / 10)⟩ =
      specBestTarget ((filterPlanes
          [⟨Orientation.horizontal, 1 / 2, ⟨1, 18 / 25, -1⟩, "table"⟩]
          { orientation := some (mergePrefs ⟨none, none, some (7 / 10), some (3 / 10)⟩).orientation,
            minArea := some (mergePrefs ⟨none, none, some (7 / 10), some (3 / 10)⟩).minArea }).map
        (fun p => (p, scorePlane (fun _ => 0) p
          (mergePrefs ⟨none, none, some (7 / 10), some (3 / 10)⟩)))) :=
  (claim5_best_placement (fun _ => 0)
    [⟨Orientation.horizontal, 1 / 2, ⟨1, 18 / 25, -1⟩, "table"⟩]
    ⟨none, none, some (7 / 10), some (3 / 10)⟩ rfl
    (by norm_num [mergePrefs])
    (by intro p hp; rw [List.mem_singleton] at hp; subst hp; norm_num)).2.2

/-! Claim C2: plane-fallback placement failure in state scanning
(`attemptPlacement` and `findClosestPlane` in src/main.js). -/

/-- Pose of a rigid transform (`XRRigidTransform`): position and
orientation. -/
structure PoseTransform where
  position : P3
  orientation : Quat
deriving DecidableEq

/-- Plane handle as consumed by main.js: the boundary polygon, the pose
matrix that `frame.getPose(plane.planeSpace, refSpace)` resolves this
frame (`none` when the pose cannot be resolved), and the orientation
tag. -/
structure XRPlane where
  polygon : List P3
  poseMatrix : Option (List ℚ)
  orientation : Orientation
deriving DecidableEq

/-- World-space squared distance from `pointing` to the plane's
transformed polygon centre, following the loop body of
`findClosestPlane`: resolve the pose, compute `getPlaneCenter`, apply
`multiplyMatrixAndPoint` to `[cx, cy, cz, 1.0]` and measure against the
pointing position.  The source takes `Math.sqrt` of this value; the
squared form is compared below with the same strict comparisons, which
is equivalent because the real square root is strictly monotone.  A
thrown error (empty polygon, wrong-size matrix) is caught and the plane
skipped as in the source's `try`/`catch`; `none` encodes a skipped
plane. -/
def planeCenterDistSq (pointing : P3) (plane : XRPlane) : Option ℚ :=
  match plane.poseMatrix with
  | none => none
  | some matrix =>
    match getPlaneCenter plane.polygon with
    | Except.error _ => none
    | Except.ok c =>
      match multiplyMatrixAndPoint matrix [c.x, c.y, c.z, 1] with
      | Except.error _ => none
      | Except.ok w =>
        some ((pointing.x - w.getD 0 0) ^ 2 + (pointing.y - w.getD 1 0) ^ 2 +
          (pointing.z - w.getD 2 0) ^ 2)

/-- One iteration of the loop in `findClosestPlane`: keep the running
closest plane, replacing it on a strictly smaller distance (`<` in the
source, on square roots; on squares here). -/
def closestStep (pointing : P3) (acc : Option XRPlane × Option ℚ) (plane : XRPlane) :
    Option XRPlane × Option ℚ :=
  match planeCenterDistSq pointing plane with
  | none => acc
  | some dsq =>
    match acc.2 with
    | none => (some plane, some dsq)
    | some best => if dsq < best then (some plane, some dsq) else acc

/-- Embeds `findClosestPlane` from src/main.js.  The accumulator's
`none` distance stands for the `Infinity` seed of `closestDistance`.
The final guard is `closestDistance < MAX_PLACEMENT_DISTANCE` with
`MAX_PLACEMENT_DISTANCE = 2.0`, i.e. squared distance `< 4`. -/
def findClosestPlane (pointing : P3) (planes : List XRPlane) : Option XRPlane :=
  match (planes.foldl (closestStep pointing) (none, none)).2 with
  | none => none
  | some best =>
    if best < 4 then (planes.foldl (closestStep pointing) (none, none)).1 else none

/-- Placement state machine states of main.js (the comment at its
declaration lists all five string values). -/
inductive PlacementState
  | scanning
  | targeting
  | preview
  | placed
  | repositioning
deriving DecidableEq

/-- Slice of the main application state read and written by a placement
attempt: the state-machine value, the placed object's visibility and
transform, and the available-planes snapshot. -/
structure AppState where
  placementState : PlacementState
  treeVisible : Bool
  treePosition : P3
  treeQuaternion : Quat
  availablePlanes : List XRPlane
deriving DecidableEq

/-- Constant `OBJECT_HEIGHT_OFFSET = 0.05` from the main.js
constructor. -/
def OBJECT_HEIGHT_OFFSET : ℚ := 1 / 20

/-- Embeds `placeCubeOnPlane` (src/main.js): resolve the plane pose,
transform the polygon centre to world space with
`multiplyMatrixAndPoint`, offset along world Y for horizontal planes
(world Z otherwise), set the object visible and the state to placed,
and report success.  Throws inside the `try` (empty polygon, wrong-size
matrix) are caught and yield `false` with no mutation; the source
performs its first mutation only after every throwing call. -/
def placeCubeOnPlane (s : AppState) (plane : XRPlane) : Bool × AppState :=
  match plane.poseMatrix with
  | none => (false, s)
  | some matrix =>
    match getPlaneCenter plane.polygon with
    | Except.error _ => (false, s)
    | Except.ok c =>
      match multiplyMatrixAndPoint matrix [c.x, c.y, c.z, 1] with
      | Except.error _ => (false, s)
      | Except.ok w =>
        let pos : P3 :=
          if plane.orientation = Orientation.horizontal then
            ⟨w.getD 0 0, w.getD 1 0 + OBJECT_HEIGHT_OFFSET, w.getD 2 0⟩
          else
            ⟨w.getD 0 0, w.getD 1 0, w.getD 2 0 + OBJECT_HEIGHT_OFFSET⟩
        (true, { s with treePosition := pos, treeVisible := true,
                        placementState := PlacementState.placed })

/-- Embeds `placeCubeAtHitTest` (src/main.js): place at the hit pose
plus the height offset in world Y, adopt the hit orientation, mark
placed, report success. -/
def placeCubeAtHitTest (s : AppState) (hit : PoseTransform) : Bool × AppState :=
  (true, { s with
    treePosition :=
      ⟨hit.position.x, hit.position.y + OBJECT_HEIGHT_OFFSET, hit.position.z⟩,
    treeQuaternion := hit.orientation,
    treeVisible := true,
    placementState := PlacementState.placed })

/-- Embeds `attemptPlacement` (src/main.js).  External inputs are the
hit-test availability flag (`hitTestManager.isHitTestSupported()`), the
tracker's stored result for the selecting device
(`getHitTestResult(inputSource)`), and the device pose
(`frame.getPose(inputSource.targetRaySpace, refSpace)`), each `none`
when unavailable.  Status-bar text and cursor/highlight hiding are
external visual effects and are not part of this state slice. -/
def attemptPlacement (s : AppState) (hitTestSupported : Bool)
    (hitResult : Option PoseTransform) (inputPose : Option PoseTransform) : AppState :=
  if s.availablePlanes = [] then s
  else
    match (if hitTestSupported then
            match hitResult with
            | some hit => placeCubeAtHitTest s hit
            | none => (false, s)
          else (false, s)) with
    | (true, s1) => { s1 with placementState := PlacementState.placed }
    | (false, s1) =>
      match inputPose with
      | none => s1
      | some pose =>
        match findClosestPlane pose.position s1.availablePlanes with
        | none => s1
        | some plane =>
          match placeCubeOnPlane s1 plane with
          | (true, s2) => { s2 with placementState := PlacementState.placed }
          | (false, s2) => s2

theorem closestStep_fold_far (pointing : P3) (planes : List XRPlane) :
    ∀ acc : Option XRPlane × Option ℚ,
      (∀ plane ∈ planes, ∀ dsq, planeCenterDistSq pointing plane = some dsq → 4 < dsq) →
      (acc.2 = none ∨ ∃ b, acc.2 = some b ∧ 4 < b) →
      ((planes.foldl (closestStep pointing) acc).2 = none ∨
        ∃ b, (planes.foldl (closestStep pointing) acc).2 = some b ∧ 4 < b) := by
  induction planes with
  | nil => intro acc _ hacc; exact hacc
  | cons plane rest ih =>
    intro acc hfar hacc
    rw [List.foldl_cons]
    refine ih (closestStep pointing acc plane)
      (fun q hq dsq hd => hfar q (List.mem_cons_of_mem plane hq) dsq hd) ?_
    unfold closestStep
    cases hpd : planeCenterDistSq pointing plane with
    | none => exact hacc
    | some dsq =>
      have hgt : 4 < dsq := hfar plane (List.mem_cons_self plane rest) dsq hpd
      rcases hacc with h2 | ⟨b, hb, hbgt⟩
      · rw [h2]
        exact Or.inr ⟨dsq, rfl, hgt⟩
      · rw [hb]
        dsimp only
        split_ifs with hlt
        · exact Or.inr ⟨dsq, rfl, hgt⟩
        · exact Or.inr ⟨b, hb, hbgt⟩

/-- Claim C2: in state scanning with no live hit-test result, when every
available plane either fails to resolve or has its world centroid
strictly farther than `MAX_PLACEMENT_DISTANCE = 2` metres (squared
distance above 4) from the pointing position, the plane fallback finds
no target and the placement attempt leaves the application state
unchanged: the state stays scanning and the object's visibility is
untouched. -/
theorem claim2_far_planes_no_placement (s : AppState) (hitTestSupported : Bool)
    (pose : PoseTransform)
    (hscan : s.placementState = PlacementState.scanning)
    (hfar : ∀ plane ∈ s.availablePlanes, ∀ dsq,
      planeCenterDistSq pose.position plane = some dsq → 4 < dsq) :
    findClosestPlane pose.position s.availablePlanes = none ∧
    attemptPlacement s hitTestSupported none (some pose) = s ∧
    (attemptPlacement s hitTestSupported none (some pose)).placementState =
      PlacementState.scanning ∧
    (attemptPlacement s hitTestSupported none (some pose)).treeVisible = s.treeVisible := by
  have hnone : findClosestPlane pose.position s.availablePlanes = none := by
    unfold findClosestPlane
    rcases closestStep_fold_far pose.position s.availablePlanes (none, none) hfar
        (Or.inl rfl) with h | ⟨b, hb, hbgt⟩
    · rw [h]
    · rw [hb]
      dsimp only
      rw [if_neg (by linarith)]
  have heq : attemptPlacement s hitTestSupported none (some pose) = s := by
    unfold attemptPlacement
    by_cases hpl : s.availablePlanes = []
    · rw [if_pos hpl]
    · rw [if_neg hpl]
      cases hitTestSupported
      · rw [if_neg Bool.false_ne_true]
        dsimp only
        rw [hnone]
      · rw [if_pos rfl]
        dsimp only
        rw [hnone]
  exact ⟨hnone, heq, by rw [heq, hscan], by rw [heq]⟩

/-- Claim C2, witness: one horizontal plane whose centroid sits 2.5 m
from the pointing position (squared distance 25/4 > 4), identity pose
matrix; the state is unchanged by the attempt. -/
theorem claim2_far_planes_no_placement_witness :
    findClosestPlane (⟨0, 0, 0⟩ : P3)
      [⟨[⟨1, 0, -5/2⟩, ⟨-1, 0, -5/2⟩, ⟨0, 0, -5/2⟩],
        some [1, 0, 0, 0, 0, 1, 0, 0, 0, 0, 1, 0, 0, 0, 0, 1],
        Orientation.horizontal⟩] = none ∧
    attemptPlacement
      ⟨PlacementState.scanning, false, ⟨0, 0, 0⟩, ⟨0, 0, 0, 1⟩,
        [⟨[⟨1, 0, -5/2⟩, ⟨-1, 0, -5/2⟩, ⟨0, 0, -5/2⟩],
          some [1, 0, 0, 0, 0, 1, 0, 0, 0, 0, 1, 0, 0, 0, 0, 1],
          Orientation.horizontal⟩]⟩
      true none (some ⟨⟨0, 0, 0⟩, ⟨0, 0, 0, 1⟩⟩) =
      ⟨PlacementState.scanning, false, ⟨0, 0, 0⟩, ⟨0, 0, 0, 1⟩,
        [⟨[⟨1, 0, -5/2⟩, ⟨-1, 0, -5/2⟩, ⟨0, 0, -5/2⟩],
          some [1, 0, 0, 0, 0, 1, 0, 0, 0, 0, 1, 0, 0, 0, 0, 1],
          Orientation.horizontal⟩]⟩ ∧
    (attemptPlacement
      ⟨PlacementState.scanning, false, ⟨0, 0, 0⟩, ⟨0, 0, 0, 1⟩,
        [⟨[⟨1, 0, -5/2⟩, ⟨-1, 0, -5/2⟩, ⟨0, 0, -5/2⟩],
          some [1, 0, 0, 0, 0, 1, 0, 0, 0, 0, 1, 0, 0, 0, 0, 1],
          Orientation.horizontal⟩]⟩
      true none (some ⟨⟨0, 0, 0⟩, ⟨0, 0, 0, 1⟩⟩)).placementState =
      PlacementState.scanning ∧
    (attemptPlacement
      ⟨PlacementState.scanning, false, ⟨0, 0, 0⟩, ⟨0, 0, 0, 1⟩,
        [⟨[⟨1, 0, -5/2⟩, ⟨-1, 0, -5/2⟩, ⟨0, 0, -5/2⟩],
          some [1, 0, 0, 0, 0, 1, 0, 0, 0, 0, 1, 0, 0, 0, 0, 1],
          Orientation.horizontal⟩]⟩
      true none (some ⟨⟨0, 0, 0⟩, ⟨0, 0, 0, 1⟩⟩)).treeVisible = false :=
  claim2_far_planes_no_placement
    ⟨PlacementState.scanning, false, ⟨0, 0, 0⟩, ⟨0, 0, 0, 1⟩,
      [⟨[⟨1, 0, -5/2⟩, ⟨-1, 0, -5/2⟩, ⟨0, 0, -5/2⟩],
        some [1, 0, 0, 0, 0, 1, 0, 0, 0, 0, 1, 0, 0, 0, 0, 1],
        Orientation.horizontal⟩]⟩
    true ⟨⟨0, 0, 0⟩, ⟨0, 0, 0, 1⟩⟩ rfl
    (by
      intro plane hp dsq hd
      rw [List.mem_singleton] at hp
      subst hp
      simp only [planeCenterDistSq, getPlaneCenter, multiplyMatrixAndPoint,
        List.range_succ] at hd
      norm_num at hd
      linarith [hd])

/-! Claim C1: select in state placed — ray interaction with the placed
object (`checkCubeInteraction` and `startRepositioning` in
src/main.js). -/

/-- Material slice mutated by `startRepositioning`'s traverse:
`transparent` and `opacity`. -/
structure Material where
  transparent : Bool
  opacity : ℚ
deriving DecidableEq

/-- The placed object (`this.treeScene`): visibility plus the materials
found on the nodes of its subtree, in `traverse` order. -/
structure SceneNode where
  visible : Bool
  materials : List Material
deriving DecidableEq

/-- Slice of the application state touched when repositioning starts:
state-machine value, placed flag, anchor state and the tree scene. -/
structure InteractionState where
  placementState : PlacementState
  isPlaced : Bool
  objectAnchor : Bool
  trackAnchoredObject : Bool
  treeScene : Option SceneNode
deriving DecidableEq

/-- Embeds `startRepositioning` (src/main.js): state to repositioning,
placed flag cleared, anchor dropped (tracking disabled when an anchor
existed), and every material in the tree scene's subtree set transparent
with opacity 0.7. -/
def startRepositioning (s : InteractionState) : InteractionState :=
  { s with
    placementState := PlacementState.repositioning,
    isPlaced := false,
    objectAnchor := false,
    trackAnchoredObject := if s.objectAnchor then false else s.trackAnchoredObject,
    treeScene := s.treeScene.map fun t =>
      { t with materials := t.materials.map fun _ => ⟨true, 7 / 10⟩ } }

/-- Embeds `checkCubeInteraction` (src/main.js).  The renderer raycast
`raycaster.intersectObject(this.treeScene, true)` is an external
collaborator; its output is passed in as the list of intersection
distances, which three.js returns sorted ascending.  The source reads
`intersections[0]` and compares its distance against
`MAX_INTERACTION_DISTANCE = 3.0` with `<=`; a missing tree scene,
invisible tree scene or unresolvable input pose leave the state
untouched. -/
def checkCubeInteraction (s : InteractionState) (inputPose : Option PoseTransform)
    (intersections : List ℚ) : InteractionState :=
  match s.treeScene with
  | none => s
  | some tree =>
    if tree.visible = false then s
    else
      match inputPose with
      | none => s
      | some _ =>
        match intersections with
        | [] => s
        | d :: _ => if d ≤ 3 then startRepositioning s else s

/-- Claim C1: for a select event handled in state placed with a visible
placed object and a resolvable device pose, over the ascending-sorted
intersection list of the recursive raycast: if the ray meets the object
within 3 m, the state becomes repositioning and every material of the
placed object gets opacity 0.7 (and is made transparent); otherwise —
no intersection, or nearest intersection beyond 3 m — the state is
entirely unchanged. -/
theorem claim1_select_starts_repositioning (s : InteractionState) (pose : PoseTransform)
    (intersections : List ℚ) (tree : SceneNode)
    (_hplaced : s.placementState = PlacementState.placed)
    (htree : s.treeScene = some tree)
    (hvis : tree.visible = true)
    (hsorted : intersections.Sorted (· ≤ ·)) :
    ((∃ d ∈ intersections, d ≤ 3) →
      (checkCubeInteraction s (some pose) intersections).placementState =
        PlacementState.repositioning ∧
      ∃ tree', (checkCubeInteraction s (some pose) intersections).treeScene = some tree' ∧
        tree'.materials = tree.materials.map (fun _ => ⟨true, 7 / 10⟩) ∧
        ∀ m ∈ tree'.materials, m.transparent = true ∧ m.opacity = 7 / 10) ∧
    ((∀ d ∈ intersections, 3 < d) →
      checkCubeInteraction s (some pose) intersections = s) := by
  unfold checkCubeInteraction
  rw [htree]
  dsimp only
  rw [hvis]
  rw [if_neg (by simp)]
  cases intersections with
  | nil =>
    constructor
    · rintro ⟨d, hd, -⟩
      cases hd
    · intro _
      rfl
  | cons d rest =>
    dsimp only
    have hdmin : ∀ x ∈ d :: rest, d ≤ x := by
      intro x hx
      rcases List.mem_cons.mp hx with rfl | hx'
      · exact le_refl x
      · exact (List.sorted_cons.mp hsorted).1 x hx'
    constructor
    · rintro ⟨e, he, he3⟩
      have hd3 : d ≤ 3 := le_trans (hdmin e he) he3
      rw [if_pos hd3]
      refine ⟨rfl, ?_⟩
      unfold startRepositioning
      rw [htree]
      refine ⟨_, rfl, rfl, ?_⟩
      intro m hm
      rcases List.mem_map.mp hm with ⟨m0, hm0, rfl⟩
      exact ⟨rfl, rfl⟩
    · intro hall
      have hd3 : ¬ d ≤ 3 := not_le.mpr (hall d (List.mem_cons_self d rest))
      rw [if_neg hd3]

/-- Claim C1, witness: a single intersection at 1.2 m (sorted trivially)
switches the state to repositioning and sets the one material to
transparent opacity 0.7; applied to a concrete placed state. -/
theorem claim1_select_starts_repositioning_witness :
    (checkCubeInteraction
      ⟨PlacementState.placed, true, false, false, some ⟨true, [⟨false, 1⟩]⟩⟩
      (some ⟨⟨0, 0, 0⟩, ⟨0, 0, 0, 1⟩⟩) [6 / 5]).placementState =
      PlacementState.repositioning ∧
    ∃ tree', (checkCubeInteraction
      ⟨PlacementState.placed, true, false, false, some ⟨true, [⟨false, 1⟩]⟩⟩
      (some ⟨⟨0, 0, 0⟩, ⟨0, 0, 0, 1⟩⟩) [6 / 5]).treeScene = some tree' ∧
      tree'.materials = [Material.mk false 1].map (fun _ => ⟨true, 7 / 10⟩) ∧
      ∀ m ∈ tree'.materials, m.transparent = true ∧ m.opacity = 7 / 10 :=
  (claim1_select_starts_repositioning
    ⟨PlacementState.placed, true, false, false, some ⟨true, [⟨false, 1⟩]⟩⟩
    ⟨⟨0, 0, 0⟩, ⟨0, 0, 0, 1⟩⟩ [6 / 5] ⟨true, [⟨false, 1⟩]⟩
    rfl rfl rfl (List.sorted_singleton _)).1
    ⟨6 / 5, List.mem_singleton_self _, by norm_num⟩

/-! Claim C7: cursor update with a malformed pose (`CursorManager` in
src/interaction/CursorManager.js). -/

/-- Possibly malformed rigid transform: position or orientation may be
missing. -/
structure LooseTransform where
  position : Option P3
  orientation : Option Quat
deriving DecidableEq

/-- Possibly malformed pose: the transform may be missing. -/
structure LoosePose where
  transform : Option LooseTransform
deriving DecidableEq

/-- Hit result as consumed by the cursor manager: the pose itself may be
missing. -/
structure CursorHitResult where
  pose : Option LoosePose
deriving DecidableEq

/-- Renderable cursor slice: visibility, transform and the three
animated material opacities (wireframe, fill, centre dot). -/
structure CursorObj where
  visible : Bool
  position : P3
  quaternion : Quat
  wireframeOpacity : ℚ
  fillOpacity : ℚ
  centerOpacity : ℚ
deriving DecidableEq

/-- Embeds `createCursor`: a fresh THREE.Group is visible at the origin
with identity orientation; the materials are constructed at opacities
`CURSOR_OPACITY = 0.6`, `0.6 * 0.3` and `0.8`. -/
def createCursor : CursorObj :=
  ⟨true, ⟨0, 0, 0⟩, ⟨0, 0, 0, 1⟩, 6 / 10, 6 / 10 * (3 / 10), 8 / 10⟩

/-- Embeds `updateCursorPosition` with `Math.sin` as the oracle `sinQ`.
A malformed pose (missing pose, transform, position or orientation)
hides the cursor and changes nothing else; the function never throws.  A
valid pose moves the cursor to the hit position with the 1 mm
`SURFACE_OFFSET`, adopts the orientation and pulses the three opacities
with factor `0.8 + 0.2 * sin(time * 0.001 * ANIMATION_SPEED)`,
`ANIMATION_SPEED = 2.0`.  It does not touch `visible` on the valid
path. -/
def updateCursorPosition (sinQ : ℚ → ℚ) (cursor : CursorObj)
    (hitResult : CursorHitResult) (time : ℚ) : CursorObj :=
  match hitResult.pose with
  | none => { cursor with visible := false }
  | some pose =>
    match pose.transform with
    | none => { cursor with visible := false }
    | some tr =>
      match tr.position, tr.orientation with
      | some position, some orientation =>
        let pulse := 8 / 10 + 2 / 10 * sinQ (time * (1 / 1000) * 2)
        { cursor with
          position := ⟨position.x, position.y + 1 / 1000, position.z⟩,
          quaternion := orientation,
          wireframeOpacity := 6 / 10 * pulse,
          fillOpacity := 6 / 10 * (3 / 10) * pulse,
          centerOpacity := 8 / 10 * pulse }
      | _, _ => { cursor with visible := false }

/-- Association-list update with JS `Map.set` semantics: replace in
place when the key exists, append otherwise. -/
def setEntry : List (ℕ × CursorObj) → ℕ → CursorObj → List (ℕ × CursorObj)
  | [], d, c => [(d, c)]
  | (d', c') :: rest, d, c =>
    if d' = d then (d, c) :: rest else (d', c') :: setEntry rest d c

/-- JS `Map.get`, `undefined` as `none`. -/
def getEntry (cursors : List (ℕ × CursorObj)) (d : ℕ) : Option CursorObj :=
  (cursors.find? (fun p => p.1 == d)).map Prod.snd

/-- Embeds `updateCursors`: when not disposed, for each device with a
hit result fetch or create its cursor, run `updateCursorPosition`, then
set `cursor.visible = true` unconditionally; afterwards hide every
cursor whose device has no result this frame.  The loop's `try`/`catch`
never fires in this model because `updateCursorPosition` validates the
pose instead of throwing, exactly as the source does. -/
def updateCursors (sinQ : ℚ → ℚ) (isDisposed : Bool)
    (cursors : List (ℕ × CursorObj)) (hitTestResults : List (ℕ × CursorHitResult))
    (time : ℚ) : List (ℕ × CursorObj) :=
  if isDisposed then cursors
  else
    let updated := hitTestResults.foldl
      (fun cs dr =>
        setEntry cs dr.1
          { updateCursorPosition sinQ ((getEntry cs dr.1).getD createCursor) dr.2 time with
            visible := true })
      cursors
    updated.map fun p =>
      if (hitTestResults.find? (fun q => q.1 == p.1)).isSome then p
      else (p.1, { p.2 with visible := false })

/-- Claim C7, divergence exhibited: device 1 has a malformed hit result
(missing position).  `updateCursorPosition` itself hides the cursor, as
the claim demands (second conjunct), but `updateCursors` then
unconditionally runs `cursor.visible = true`, so after the full cursor
update the indicator of device 1 is visible at its old transform — the
claim's required hiding never survives the update loop.  Processing does
continue to device 2, whose valid result yields a fresh updated cursor,
and nothing throws.  (The claim is right about the intended behaviour —
the validation path inside `updateCursorPosition` exists exactly for it —
so this is recorded as a code bug, not a spec error.) -/
theorem claim7_malformed_pose_override :
    updateCursors (fun _ => 0) false
      [(1, ⟨false, ⟨5, 5, 5⟩, ⟨0, 0, 0, 1⟩, 0, 0, 0⟩)]
      [(1, ⟨some ⟨some ⟨none, some ⟨0, 0, 0, 1⟩⟩⟩⟩),
       (2, ⟨some ⟨some ⟨some ⟨1, 2, 3⟩, some ⟨0, 0, 0, 1⟩⟩⟩⟩)] 0 =
      [(1, ⟨true, ⟨5, 5, 5⟩, ⟨0, 0, 0, 1⟩, 0, 0, 0⟩),
       (2, ⟨true, ⟨1, 2001 / 1000, 3⟩, ⟨0, 0, 0, 1⟩, 12 / 25, 18 / 125, 16 / 25⟩)] ∧
    (updateCursorPosition (fun _ => 0)
      ⟨false, ⟨5, 5, 5⟩, ⟨0, 0, 0, 1⟩, 0, 0, 0⟩
      ⟨some ⟨some ⟨none, some ⟨0, 0, 0, 1⟩⟩⟩⟩ 0).visible = false := by
  constructor
  · norm_num [updateCursors, updateCursorPosition, getEntry, setEntry, createCursor]
  · rfl

/-! Claim C4: per-frame hit-test refresh
(`HitTestManager.updateHitTests` in src/webxr/planes.js). -/

/-- Stored hit record: resolved pose plus the frame timestamp, as built
by `updateHitTests` (the weak `inputSource` back-reference is the map
key itself here). -/
structure HitRecord where
  pose : PoseTransform
  timestamp : ℚ
deriving DecidableEq

/-- Hit-test manager state slice: support and disposal flags, the
subscribed devices (keys of `hitTestSources`, in insertion order) and
the current results map as an association list. -/
structure TrackerState where
  isSupported : Bool
  isDisposed : Bool
  sources : List ℕ
  results : List (ℕ × HitRecord)
deriving DecidableEq

/-- Frame inputs consumed by `updateHitTests`: whether `frame.session`
exists and has not ended; per subscribed device the outcome of
`frame.getHitTestResults` (`none` models a thrown error, caught and
logged per device by the source; otherwise the ordered hit list, each
hit carrying the outcome of `hit.getPose(referenceSpace)`); and
`frame.predictedDisplayTime`. -/
structure FrameData where
  sessionLive : Bool
  queryResults : ℕ → Option (List (Option PoseTransform))
  predictedDisplayTime : ℚ

/-- One iteration of the loop in `updateHitTests`: query the device's
source, keep the first hit if its pose resolves, skip on error, empty
results or unresolved pose. -/
def collectStep (frame : FrameData) (acc : List (ℕ × HitRecord)) (d : ℕ) :
    List (ℕ × HitRecord) :=
  match frame.queryResults d with
  | none => acc
  | some hits =>
    match hits with
    | [] => acc
    | h :: _ =>
      match h with
      | none => acc
      | some pose => acc ++ [(d, ⟨pose, frame.predictedDisplayTime⟩)]

/-- Embeds `HitTestManager.updateHitTests`: no-op when unsupported or
disposed; no-op — notably without clearing — when the frame's session
is missing or ended; otherwise `hitTestResults.clear()` followed by the
per-device collection loop. -/
def updateHitTests (frame : FrameData) (s : TrackerState) : TrackerState :=
  if !s.isSupported || s.isDisposed then s
  else if !frame.sessionLive then s
  else { s with results := s.sources.foldl (collectStep frame) [] }

/-- Claim-side description of what one device contributes: the first
result of this frame's query, kept only when its pose resolved. -/
def firstHitRecord (frame : FrameData) (d : ℕ) : Option (ℕ × HitRecord) :=
  match frame.queryResults d with
  | some (some pose :: _) => some (d, ⟨pose, frame.predictedDisplayTime⟩)
  | _ => none

theorem collect_foldl_eq (frame : FrameData) (sources : List ℕ) :
    ∀ acc, sources.foldl (collectStep frame) acc =
      acc ++ sources.filterMap (firstHitRecord frame) := by
  induction sources with
  | nil => intro acc; simp
  | cons d rest ih =>
    intro acc
    rw [List.foldl_cons, ih, List.filterMap_cons]
    unfold collectStep firstHitRecord
    cases hq : frame.queryResults d with
    | none => simp
    | some hits =>
      cases hits with
      | nil => simp
      | cons h t =>
        cases h with
        | none => simp
        | some pose => simp

theorem firstHitRecord_eq_some (frame : FrameData) (a : ℕ) (p : ℕ × HitRecord)
    (h : firstHitRecord frame a = some p) :
    p.1 = a ∧ ∃ rest, frame.queryResults a = some (some p.2.pose :: rest) ∧
      p.2.timestamp = frame.predictedDisplayTime := by
  unfold firstHitRecord at h
  cases hq : frame.queryResults a with
  | none => rw [hq] at h; cases h
  | some hits =>
    rw [hq] at h
    cases hits with
    | nil => cases h
    | cons hd tl =>
      cases hd with
      | none => cases h
      | some pose =>
        have hp := Option.some.inj h
        rw [← hp]
        exact ⟨rfl, tl, rfl, rfl⟩

theorem filterMap_firstHit_keys (frame : FrameData) (sources : List ℕ) :
    (sources.filterMap (firstHitRecord frame)).map Prod.fst =
      sources.filter (fun d => (firstHitRecord frame d).isSome) := by
  induction sources with
  | nil => rfl
  | cons d rest ih =>
    rw [List.filterMap_cons, List.filter_cons]
    cases hq : firstHitRecord frame d with
    | none => simpa [hq] using ih
    | some r =>
      have hfst : r.1 = d := (firstHitRecord_eq_some frame d r hq).1
      simp [hfst, ih]

/-- Claim C4, amended: on a supported, non-disposed tracker refreshed
with a frame whose session is live, the refresh clears prior results
and repopulates: the new result list is exactly the per-device
first-resolved-hit extraction (first conjunct), is independent of
whatever was stored before the call (second conjunct — nothing stored
before the call survives), each stored entry belongs to a subscribed
device and is the first result of this frame's query with a resolved
pose and this frame's timestamp (third conjunct), and with distinct
subscription keys each device maps to at most one result (fourth
conjunct).  The amendment restricts the claim to frames with a live
session: the source returns early, retaining old results, when
`!frame.session || frame.session.ended` (see the counterexample). -/
theorem claim4_refresh_clears_and_repopulates (frame : FrameData) (s : TrackerState)
    (hsup : s.isSupported = true) (hdisp : s.isDisposed = false)
    (hlive : frame.sessionLive = true) (hnodup : s.sources.Nodup) :
    (updateHitTests frame s).results = s.sources.filterMap (firstHitRecord frame) ∧
    (∀ old, (updateHitTests frame { s with results := old }).results =
      (updateHitTests frame s).results) ∧
    (∀ d r, (d, r) ∈ (updateHitTests frame s).results →
      d ∈ s.sources ∧ ∃ rest, frame.queryResults d = some (some r.pose :: rest) ∧
        r.timestamp = frame.predictedDisplayTime) ∧
    (∀ d, ((updateHitTests frame s).results.map Prod.fst).count d ≤ 1) := by
  have hrun : ∀ res : List (ℕ × HitRecord),
      (updateHitTests frame { s with results := res }).results =
        s.sources.filterMap (firstHitRecord frame) := by
    intro res
    unfold updateHitTests
    rw [hsup, hdisp, hlive]
    simp only [Bool.not_true, Bool.false_or, if_neg (by simp : ¬(false = true)),
      Bool.not_false]
    exact collect_foldl_eq frame s.sources []
  have hmain : (updateHitTests frame s).results =
      s.sources.filterMap (firstHitRecord frame) := by
    have := hrun s.results
    simpa using this
  refine ⟨hmain, fun old => by rw [hrun old, hmain], ?_, ?_⟩
  · intro d r hd
    rw [hmain] at hd
    obtain ⟨a, ha, hfa⟩ := List.mem_filterMap.mp hd
    obtain ⟨h1, rest, h2, h3⟩ := firstHitRecord_eq_some frame a (d, r) hfa
    simp only at h1 h2 h3
    subst h1
    exact ⟨ha, rest, h2, h3⟩
  · intro d
    rw [hmain, filterMap_firstHit_keys]
    calc (s.sources.filter (fun d => (firstHitRecord frame d).isSome)).count d ≤
        s.sources.count d := List.Sublist.count_le (List.filter_sublist s.sources) d
    _ ≤ 1 := List.nodup_iff_count_le_one.mp hnodup d

/-- Claim C4, witness: one subscribed device (7) whose query returns a
resolved first hit; the refresh equals the extraction. -/
theorem claim4_refresh_witness :
    (updateHitTests
      ⟨true, fun _ => some [some ⟨⟨1, 2, 3⟩, ⟨0, 0, 0, 1⟩⟩], 9⟩
      ⟨true, false, [7], [(0, ⟨⟨⟨4, 4, 4⟩, ⟨0, 0, 0, 1⟩⟩, 1⟩)]⟩).results =
      [7].filterMap (firstHitRecord
        ⟨true, fun _ => some [some ⟨⟨1, 2, 3⟩, ⟨0, 0, 0, 1⟩⟩], 9⟩) :=
  (claim4_refresh_clears_and_repopulates
    ⟨true, fun _ => some [some ⟨⟨1, 2, 3⟩, ⟨0, 0, 0, 1⟩⟩], 9⟩
    ⟨true, false, [7], [(0, ⟨⟨⟨4, 4, 4⟩, ⟨0, 0, 0, 1⟩⟩, 1⟩)]⟩
    rfl rfl rfl (by simp)).1

/-- Claim C4, counterexample: a supported, non-disposed tracker holding
one stored result, refreshed with a frame whose session has ended: the
source's `!frame.session || frame.session.ended` guard returns before
clearing, so the pre-call result survives the call, contradicting the
claim's unconditional "no hit result stored before the call survives
the call".  (The frame's queries would yield nothing, so a clearing
refresh would have emptied the map.) -/
theorem claim4_counterexample :
    (updateHitTests ⟨false, fun _ => some [], 0⟩
      ⟨true, false, [0], [(0, ⟨⟨⟨0, 0, 0⟩, ⟨0, 0, 0, 1⟩⟩, 5⟩)]⟩).results =
      [(0, ⟨⟨⟨0, 0, 0⟩, ⟨0, 0, 0, 1⟩⟩, 5⟩)] ∧
    ([(0, (⟨⟨⟨0, 0, 0⟩, ⟨0, 0, 0, 1⟩⟩, 5⟩ : HitRecord))] :
      List (ℕ × HitRecord)) ≠ [] :=
  ⟨rfl, by simp⟩

/-! Claim C10: the all-results accessor returns a fresh copy
(`HitTestManager.getAllHitTestResults` in src/webxr/planes.js).  The JS
expression `new Map(this.hitTestResults)` allocates a new object whose
later mutation cannot affect the internal map; aliasing is modelled
with an explicit heap of `Map` objects addressed by natural-number
references and a bump allocator. -/

/-- Heap of JS `Map` objects: bump-allocator index plus the contents at
each reference. -/
structure MapHeap where
  next : ℕ
  maps : ℕ → List (ℕ × HitRecord)

/-- Allocation `new Map(contents)`: a fresh, never-before-used
reference. -/
def allocMap (h : MapHeap) (contents : List (ℕ × HitRecord)) : MapHeap × ℕ :=
  (⟨h.next + 1, fun r => if r = h.next then contents else h.maps r⟩, h.next)

/-- Manager state relevant to the accessor: the reference to the
internal `hitTestResults` map and the disposal flag. -/
structure ManagerRef where
  resultsRef : ℕ
  isDisposed : Bool

/-- Embeds `getAllHitTestResults`: `new Map()` when disposed, otherwise
`new Map(this.hitTestResults)` — in both cases a fresh allocation,
never the internal reference itself. -/
def getAllHitTestResults (h : MapHeap) (m : ManagerRef) : MapHeap × ℕ :=
  if m.isDisposed then allocMap h []
  else allocMap h (h.maps m.resultsRef)

/-- `Map.prototype.set` semantics on an association list. -/
def setRecord : List (ℕ × HitRecord) → ℕ → HitRecord → List (ℕ × HitRecord)
  | [], k, v => [(k, v)]
  | (k', v') :: rest, k, v =>
    if k' = k then (k, v) :: rest else (k', v') :: setRecord rest k v

/-- `Map.prototype.delete` semantics on an association list. -/
def deleteRecord : List (ℕ × HitRecord) → ℕ → List (ℕ × HitRecord)
  | [], _ => []
  | (k', v') :: rest, k => if k' = k then rest else (k', v') :: deleteRecord rest k

/-- `Map.prototype.set` on a heap reference. -/
def heapMapSet (h : MapHeap) (r : ℕ) (k : ℕ) (v : HitRecord) : MapHeap :=
  ⟨h.next, fun r' => if r' = r then setRecord (h.maps r) k v else h.maps r'⟩

/-- `Map.prototype.delete` on a heap reference. -/
def heapMapDelete (h : MapHeap) (r : ℕ) (k : ℕ) : MapHeap :=
  ⟨h.next, fun r' => if r' = r then deleteRecord (h.maps r) k else h.maps r'⟩

/-- Claim C10: for a heap-valid internal reference, the accessor returns
a reference distinct from the internal one; the call leaves the internal
map's contents unchanged; adding to or removing from the returned map
leaves the internal map unchanged; the returned map is empty after
dispose and otherwise holds exactly the internal contents; and a second
call with no intervening refresh returns a map with equal contents. -/
theorem claim10_getAll_fresh_copy (h : MapHeap) (m : ManagerRef)
    (hvalid : m.resultsRef < h.next) :
    (getAllHitTestResults h m).2 ≠ m.resultsRef ∧
    ((getAllHitTestResults h m).1.maps m.resultsRef = h.maps m.resultsRef) ∧
    (∀ k v, (heapMapSet (getAllHitTestResults h m).1 (getAllHitTestResults h m).2
        k v).maps m.resultsRef = h.maps m.resultsRef) ∧
    (∀ k, (heapMapDelete (getAllHitTestResults h m).1 (getAllHitTestResults h m).2
        k).maps m.resultsRef = h.maps m.resultsRef) ∧
    (m.isDisposed = true →
      (getAllHitTestResults h m).1.maps (getAllHitTestResults h m).2 = []) ∧
    (m.isDisposed = false →
      (getAllHitTestResults h m).1.maps (getAllHitTestResults h m).2 =
        h.maps m.resultsRef) ∧
    ((getAllHitTestResults (getAllHitTestResults h m).1 m).1.maps
        (getAllHitTestResults (getAllHitTestResults h m).1 m).2 =
      (getAllHitTestResults h m).1.maps (getAllHitTestResults h m).2) := by
  have hne : m.resultsRef ≠ h.next := by omega
  have hne' : ¬h.next = m.resultsRef := by omega
  cases hdisp : m.isDisposed <;>
    simp_all [getAllHitTestResults, allocMap, heapMapSet, heapMapDelete, hne, hne']

/-- Claim C10, witness: a one-map heap whose internal map holds one
record; all seven conjuncts at this concrete input. -/
theorem claim10_getAll_fresh_copy_witness :
    (getAllHitTestResults
      ⟨1, fun r => if r = 0 then [(3, ⟨⟨⟨1, 1, 1⟩, ⟨0, 0, 0, 1⟩⟩, 2⟩)] else []⟩
      ⟨0, false⟩).2 ≠ 0 ∧
    ((getAllHitTestResults
      ⟨1, fun r => if r = 0 then [(3, ⟨⟨⟨1, 1, 1⟩, ⟨0, 0, 0, 1⟩⟩, 2⟩)] else []⟩
      ⟨0, false⟩).1.maps 0 =
      (⟨1, fun r => if r = 0 then [(3, ⟨⟨⟨1, 1, 1⟩, ⟨0, 0, 0, 1⟩⟩, 2⟩)] else []⟩ :
        MapHeap).maps 0) ∧
    (∀ k v, (heapMapSet (getAllHitTestResults
        ⟨1, fun r => if r = 0 then [(3, ⟨⟨⟨1, 1, 1⟩, ⟨0, 0, 0, 1⟩⟩, 2⟩)] else []⟩
        ⟨0, false⟩).1
      (getAllHitTestResults
        ⟨1, fun r => if r = 0 then [(3, ⟨⟨⟨1, 1, 1⟩, ⟨0, 0, 0, 1⟩⟩, 2⟩)] else []⟩
        ⟨0, false⟩).2 k v).maps 0 =
      (⟨1, fun r => if r = 0 then [(3, ⟨⟨⟨1, 1, 1⟩, ⟨0, 0, 0, 1⟩⟩, 2⟩)] else []⟩ :
        MapHeap).maps 0) ∧
    (∀ k, (heapMapDelete (getAllHitTestResults
        ⟨1, fun r => if r = 0 then [(3, ⟨⟨⟨1, 1, 1⟩, ⟨0, 0, 0, 1⟩⟩, 2⟩)] else []⟩
        ⟨0, false⟩).1
      (getAllHitTestResults
        ⟨1, fun r => if r = 0 then [(3, ⟨⟨⟨1, 1, 1⟩, ⟨0, 0, 0, 1⟩⟩, 2⟩)] else []⟩
        ⟨0, false⟩).2 k).maps 0 =
      (⟨1, fun r => if r = 0 then [(3, ⟨⟨⟨1, 1, 1⟩, ⟨0, 0, 0, 1⟩⟩, 2⟩)] else []⟩ :
        MapHeap).maps 0) ∧
    ((false : Bool) = true → (getAllHitTestResults
        ⟨1, fun r => if r = 0 then [(3, ⟨⟨⟨1, 1, 1⟩, ⟨0, 0, 0, 1⟩⟩, 2⟩)] else []⟩
        ⟨0, false⟩).1.maps
      (getAllHitTestResults
        ⟨1, fun r => if r = 0 then [(3, ⟨⟨⟨1, 1, 1⟩, ⟨0, 0, 0, 1⟩⟩, 2⟩)] else []⟩
        ⟨0, false⟩).2 = []) ∧
    ((false : Bool) = false → (getAllHitTestResults
        ⟨1, fun r => if r = 0 then [(3, ⟨⟨⟨1, 1, 1⟩, ⟨0, 0, 0, 1⟩⟩, 2⟩)] else []⟩
        ⟨0, false⟩).1.maps
      (getAllHitTestResults
        ⟨1, fun r => if r = 0 then [(3, ⟨⟨⟨1, 1, 1⟩, ⟨0, 0, 0, 1⟩⟩, 2⟩)] else []⟩
        ⟨0, false⟩).2 =
      (⟨1, fun r => if r = 0 then [(3, ⟨⟨⟨1, 1, 1⟩, ⟨0, 0, 0, 1⟩⟩, 2⟩)] else []⟩ :
        MapHeap).maps 0) ∧
    ((getAllHitTestResults (getAllHitTestResults
        ⟨1, fun r => if r = 0 then [(3, ⟨⟨⟨1, 1, 1⟩, ⟨0, 0, 0, 1⟩⟩, 2⟩)] else []⟩
        ⟨0, false⟩).1 ⟨0, false⟩).1.maps
      (getAllHitTestResults (getAllHitTestResults
        ⟨1, fun r => if r = 0 then [(3, ⟨⟨⟨1, 1, 1⟩, ⟨0, 0, 0, 1⟩⟩, 2⟩)] else []⟩
        ⟨0, false⟩).1 ⟨0, false⟩).2 =
      (getAllHitTestResults
        ⟨1, fun r => if r = 0 then [(3, ⟨⟨⟨1, 1, 1⟩, ⟨0, 0, 0, 1⟩⟩, 2⟩)] else []⟩
        ⟨0, false⟩).1.maps
      (getAllHitTestResults
        ⟨1, fun r => if r = 0 then [(3, ⟨⟨⟨1, 1, 1⟩, ⟨0, 0, 0, 1⟩⟩, 2⟩)] else []⟩
        ⟨0, false⟩).2) :=
  claim10_getAll_fresh_copy
    ⟨1, fun r => if r = 0 then [(3, ⟨⟨⟨1, 1, 1⟩, ⟨0, 0, 0, 1⟩⟩, 2⟩)] else []⟩
    ⟨0, false⟩ (by decide)

/-! Claim C3: at most one outstanding subscription request per device
(`updateInputSources` in src/main.js together with
`HitTestManager.setupHitTestSources` in src/webxr/planes.js).

The asynchronous behaviour is modelled as a transition system over the
relevant state: `hitTestSetupInProgress`, `pendingHitTestSources`, the
`activeInputSources` keys, the `hitTestSources` keys, the in-flight
`setupHitTestSources` batch (devices still to process and the device
whose `requestHitTestSource` promise is currently awaited) and a list of
outstanding subscription requests.  A frame tick runs
`updateInputSources` synchronously; every `await` inside
`setupHitTestSources` is an interleaving point, so request issue,
request resolution (success/failure), batch abort (`InvalidStateError`
returns out of the loop) and batch completion (the `.then`/`.catch`
continuations clearing the pending set and the in-progress flag) are
separate steps interleaving arbitrarily with ticks.  This admits a
superset of the schedules the JS event loop produces (the first request
of a batch is actually issued inside the tick), so a safety property
over all traces covers the real program. -/

/-- In-flight `setupHitTestSources` batch: devices still to process,
the batch's original device set (removed from pending on completion),
and the device whose request, if any, is currently awaited. -/
structure SetupBatch where
  remaining : List ℕ
  orig : Finset ℕ
  awaiting : Option ℕ
deriving DecidableEq

/-- Concurrency-relevant state of input tracking and subscription
setup. -/
structure InputTrackingState where
  active : Finset ℕ
  pending : Finset ℕ
  inProgress : Bool
  sources : Finset ℕ
  batch : Option SetupBatch
  outstanding : List ℕ
deriving DecidableEq

/-- Devices of the frame's `inputSources` list not yet in
`activeInputSources`, in order, each at most once: the loop inserts
into the map as it iterates, so a duplicate entry is not new twice. -/
def newDevices (active : Finset ℕ) : List ℕ → List ℕ
  | [] => []
  | d :: rest =>
    if d ∈ active then newDevices active rest
    else d :: newDevices (insert d active) rest

/-- Embeds the synchronous body of `updateInputSources` for the frame's
device list `devs`: add new devices to the active map; if there are new
devices and `hitTestSetupInProgress` is not set, set it, filter out
devices already pending, and when any remain mark them pending and
spawn the setup batch (when none remain the flag is reset at once);
when the flag is set, skip setup entirely.  Afterwards remove vanished
devices from the active set and the pending set, and
`cleanupInactiveSources` cancels their granted subscriptions (granted
subscriptions, not outstanding requests). -/
def tickFn (devs : List ℕ) (s : InputTrackingState) : InputTrackingState :=
  let ns := newDevices s.active devs
  let active1 := s.active ∪ devs.toFinset
  let s1 : InputTrackingState :=
    if ns ≠ [] then
      if s.inProgress then { s with active := active1 }
      else
        let toSetup := ns.filter (fun d => d ∉ s.pending)
        if toSetup ≠ [] then
          { s with active := active1, inProgress := true,
                   pending := s.pending ∪ toSetup.toFinset,
                   batch := some ⟨toSetup, toSetup.toFinset, none⟩ }
        else { s with active := active1 }
    else { s with active := active1 }
  { s1 with active := s1.active ∩ devs.toFinset,
            pending := s1.pending \ (s1.active \ devs.toFinset),
            sources := s1.sources ∩ devs.toFinset }

/-- Interleaved steps of the system: frame ticks and the continuation
steps of `setupHitTestSources`. -/
inductive SetupStep : InputTrackingState → InputTrackingState → Prop
  | tick (devs : List ℕ) (s : InputTrackingState) :
      SetupStep s (tickFn devs s)
  | issue (s : InputTrackingState) (d : ℕ) (rest : List ℕ) (orig : Finset ℕ)
      (hb : s.batch = some ⟨d :: rest, orig, none⟩) (hd : d ∉ s.sources) :
      SetupStep s { s with batch := some ⟨rest, orig, some d⟩,
                           outstanding := d :: s.outstanding }
  | skip (s : InputTrackingState) (d : ℕ) (rest : List ℕ) (orig : Finset ℕ)
      (hb : s.batch = some ⟨d :: rest, orig, none⟩) (hd : d ∈ s.sources) :
      SetupStep s { s with batch := some ⟨rest, orig, none⟩ }
  | resolveOk (s : InputTrackingState) (d : ℕ) (rest : List ℕ) (orig : Finset ℕ)
      (hb : s.batch = some ⟨rest, orig, some d⟩) :
      SetupStep s { s with batch := some ⟨rest, orig, none⟩,
                           sources := insert d s.sources,
                           outstanding := s.outstanding.erase d }
  | resolveFail (s : InputTrackingState) (d : ℕ) (rest : List ℕ) (orig : Finset ℕ)
      (hb : s.batch = some ⟨rest, orig, some d⟩) :
      SetupStep s { s with batch := some ⟨rest, orig, none⟩,
                           outstanding := s.outstanding.erase d }
  | resolveAbort (s : InputTrackingState) (d : ℕ) (rest : List ℕ) (orig : Finset ℕ)
      (hb : s.batch = some ⟨rest, orig, some d⟩) :
      SetupStep s { s with batch := some ⟨[], orig, none⟩,
                           outstanding := s.outstanding.erase d }
  | finish (s : InputTrackingState) (orig : Finset ℕ)
      (hb : s.batch = some ⟨[], orig, none⟩) :
      SetupStep s { s with batch := none, inProgress := false,
                           pending := s.pending \ orig }

/-- Initial state at session start: nothing tracked, flag clear. -/
def initState : InputTrackingState := ⟨∅, ∅, false, ∅, none, []⟩

/-- Reachability from session start through any interleaving of ticks
and continuations. -/
def ReachableState (s : InputTrackingState) : Prop :=
  Relation.ReflTransGen SetupStep initState s

/-- Outstanding requests dictated by the batch: exactly the awaited
device. -/
def awaitList : Option SetupBatch → List ℕ
  | some ⟨_, _, some d⟩ => [d]
  | _ => []

/-- Inductive invariant: a live batch implies the in-progress flag is
set (so a tick can never spawn a second batch while one is live), and
the outstanding-request list is exactly the batch's awaited device. -/
def SetupInv (s : InputTrackingState) : Prop :=
  (s.batch.isSome = true → s.inProgress = true) ∧
  s.outstanding = awaitList s.batch

theorem setupInv_init : SetupInv initState :=
  ⟨fun h => by simp [initState] at h, rfl⟩

theorem setupInv_step (s s' : InputTrackingState) (hs : SetupInv s)
    (hstep : SetupStep s s') : SetupInv s' := by
  obtain ⟨hbp, hout⟩ := hs
  cases hstep with
  | tick devs s =>
    unfold SetupInv tickFn
    dsimp only
    by_cases h1 : newDevices s.active devs ≠ []
    · rw [if_pos h1]
      by_cases h2 : s.inProgress = true
      · rw [if_pos h2]
        exact ⟨fun hb => h2, hout⟩
      · rw [if_neg h2]
        have hbn : s.batch = none := by
          cases hb : s.batch with
          | none => rfl
          | some b =>
            exact absurd (hbp (by rw [hb]; rfl)) h2
        by_cases h3 : (newDevices s.active devs).filter (fun d => d ∉ s.pending) ≠ []
        · rw [if_pos h3]
          refine ⟨fun _ => rfl, ?_⟩
          rw [hout, hbn]
          rfl
        · rw [if_neg h3]
          exact ⟨fun hb => absurd (hbp hb) h2, hout⟩
    · rw [if_neg h1]
      exact ⟨hbp, hout⟩
  | issue s d rest orig hb hd =>
    refine ⟨fun _ => hbp (by rw [hb]; rfl), ?_⟩
    show d :: s.outstanding = awaitList (some ⟨rest, orig, some d⟩)
    rw [hout, hb]
    rfl
  | skip s d rest orig hb hd =>
    refine ⟨fun _ => hbp (by rw [hb]; rfl), ?_⟩
    show s.outstanding = awaitList (some ⟨rest, orig, none⟩)
    rw [hout, hb]
    rfl
  | resolveOk s d rest orig hb =>
    refine ⟨fun _ => hbp (by rw [hb]; rfl), ?_⟩
    show s.outstanding.erase d = awaitList (some ⟨rest, orig, none⟩)
    rw [hout, hb]
    simp [awaitList]
  | resolveFail s d rest orig hb =>
    refine ⟨fun _ => hbp (by rw [hb]; rfl), ?_⟩
    show s.outstanding.erase d = awaitList (some ⟨rest, orig, none⟩)
    rw [hout, hb]
    simp [awaitList]
  | resolveAbort s d rest orig hb =>
    refine ⟨fun _ => hbp (by rw [hb]; rfl), ?_⟩
    show s.outstanding.erase d = awaitList (some ⟨[], orig, none⟩)
    rw [hout, hb]
    simp [awaitList]
  | finish s orig hb =>
    refine ⟨fun h => by simp at h, ?_⟩
    show s.outstanding = awaitList none
    rw [hout, hb]
    rfl

theorem reachable_setupInv (s : InputTrackingState) (h : ReachableState s) :
    SetupInv s := by
  induction h with
  | refl => exact setupInv_init
  | tail hsteps hstep ih => exact setupInv_step _ _ ih hstep

/-- Claim C3: in every state reachable through any interleaving of
frame ticks and subscription-setup continuations, every device has at
most one outstanding hit-test subscription request.  The proof rests on
the source's `hitTestSetupInProgress` guard: a tick that overlaps an
in-flight setup skips setup entirely (and a device added to
`activeInputSources` by a first tick is no longer "new" to a concurrent
second tick), so at most one batch is ever live, and within a batch
requests are awaited one at a time. -/
theorem claim3_at_most_one_outstanding (s : InputTrackingState)
    (hreach : ReachableState s) (d : ℕ) : s.outstanding.count d ≤ 1 := by
  have hinv := reachable_setupInv s hreach
  rw [hinv.2]
  cases hb : s.batch with
  | none => simp [awaitList]
  | some b =>
    obtain ⟨rem, orig, aw⟩ := b
    cases aw with
    | none => simp [awaitList]
    | some e =>
      show [e].count d ≤ 1
      by_cases hde : d = e <;> simp [List.count_cons, hde]

/-- Claim C3, witness: after a tick that sees the new device 5 and the
issue step of its subscription request, exactly one request for device
5 is outstanding. -/
theorem claim3_at_most_one_outstanding_witness :
    (tickFn [5] initState).outstanding.count 5 ≤ 1 ∧
    ({ tickFn [5] initState with
        batch := some ⟨[], {5}, some 5⟩,
        outstanding := 5 :: (tickFn [5] initState).outstanding } :
      InputTrackingState).outstanding.count 5 ≤ 1 :=
  ⟨claim3_at_most_one_outstanding (tickFn [5] initState)
    (Relation.ReflTransGen.tail Relation.ReflTransGen.refl
      (SetupStep.tick [5] initState)) 5,
   claim3_at_most_one_outstanding _
    (Relation.ReflTransGen.tail
      (Relation.ReflTransGen.tail Relation.ReflTransGen.refl
        (SetupStep.tick [5] initState))
      (SetupStep.issue (tickFn [5] initState) 5 [] {5} (by decide) (by decide))) 5⟩

end WebXRCube
